import Mathlib

/-!
Verification development for `intunlu/ensemble.py`
(`EnsembleGenerator.generate_greedy_search`): a shallow embedding of the
ensemble greedy-decoding routine, followed by theorems about it.

Modelling conventions:
* The batch dimension is 1, as in the source (`generate_greedy_search`
  tokenizes a single text and finally decodes `input_ids[0]`).
* Score tensors of shape (1, vocab) are modelled as functions `Nat → ℚ`
  (exact rationals stand in for floats); token ids are `Nat`.
* An ensemble member bundles one loaded model plus its tokenizer.  The
  model and tokenizer themselves are external collaborators, so their
  behaviour is abstracted into function fields (`tokenize`, `detokenize`,
  `encoder`, `forward`); the `isinstance`-based family checks of the
  source are modelled by equality of family tags.
* Python exceptions become the `GenError` sum returned through `Except`.
* Library helpers invoked by the source but whose bodies are outside the
  repository are modelled from the spec, as noted on their doc comments.
-/

namespace Intunlu

/-- Error outcomes of a generation call.  The first two model the
`ValueError`s of the member-compatibility checks (the spec's
`IncompatibleEnsembleError`); the remaining ones model the other
`ValueError`/assertion failures of `generate_greedy_search`. -/
inductive GenError where
  | incompatibleModels
  | incompatibleTokenizers
  | missingStartToken
  | missingEncoderOutputs
  | unrecognizedPoolType
  | padAssertionFailed
deriving DecidableEq, Repr

/-- Decoding-relevant fields of a model's configuration
(`model.config` in the source). -/
structure Config where
  maxLength : Nat
  padTokenId : Option Nat
  eosTokenId : Option Nat
  bosTokenId : Option Nat
  numBeamGroups : Nat
  isEncoderDecoder : Bool
deriving DecidableEq, Repr

/-- The `model_kwargs` dictionary threaded through the loop: the attention
mask, the optional encoder outputs (encoder-decoder models), the optional
cached incremental decode state (`past`), and the `use_cache` flag. -/
structure ModelKwargs where
  attentionMask : List Nat
  encoderOutputs : Option (List ℚ)
  cache : Option (List ℚ)
  useCache : Bool
deriving DecidableEq, Repr

/-- One member model's forward-step result: the next-token score vector
(the last position of `outputs.logits`) and the new cached decode state. -/
structure Outputs where
  logits : Nat → ℚ
  cache : List ℚ

/-- One ensemble member: a loaded model plus its tokenizer.  `modelFamily`
and `tokenizerFamily` are the type tags compared by the `isinstance`
checks; the model/tokenizer primitives are abstract function fields since
they are external collaborators. -/
structure Member where
  modelFamily : Nat
  tokenizerFamily : Nat
  config : Config
  tokenizerPadTokenId : Option Nat
  vocab : Nat
  tokenize : String → List Nat
  detokenize : List Nat → String
  encoder : List Nat → List ℚ
  forward : List Nat → ModelKwargs → Outputs

/-- Everything produced before the decoding loop: the initial (decoder)
input ids, the prepared `model_kwargs`, and the resolved generation
parameters read from the reference member. -/
structure PrepState where
  inputIds : List Nat
  kwargs : ModelKwargs
  maxLength : Nat
  padTokenId : Option Nat
  eosTokenId : Option Nat
deriving DecidableEq, Repr

/-- The mutable state of the decoding loop: the shared token-id sequence,
the shared `model_kwargs`, and the termination bookkeeping
(`sequence_lengths`, `unfinished_sequences`, `cur_len`; batch size 1). -/
structure LoopState where
  inputIds : List Nat
  kwargs : ModelKwargs
  sequenceLength : Nat
  unfinished : Bool
  curLen : Nat
deriving DecidableEq, Repr

/-- The outcome of one loop body: the updated shared sequence, kwargs and
termination bookkeeping, plus whether a `break` was hit. -/
structure StepResult where
  inputIds : List Nat
  kwargs : ModelKwargs
  sequenceLength : Nat
  unfinished : Bool
  doBreak : Bool
deriving DecidableEq, Repr

/-- Placeholder `Outputs` used as the (never-reached) default when taking
the last element of the per-member outputs list. -/
def defaultOutputs : Outputs :=
  { logits := fun _ => 0, cache := [] }

/-- Lines 62-64 of the source: if `pad_token_id` is `None` and
`eos_token_id` is not, substitute `pad_token_id := eos_token_id`. -/
def resolvePadTokenId (pad eos : Option Nat) : Option Nat :=
  match pad, eos with
  | none, some e => some e
  | _, _ => pad

/-- Lines 28-35 of the source: every further member's model must be of the
reference member's model family, and likewise for the tokenizers
(`isinstance` against `type(self.models[0])`, modelled as equality of
family tags).  Returns the error to raise, if any. -/
def checkCompatibility (m0 : Member) (rest : List Member) : Option GenError :=
  if ¬ rest.all (fun m => m.modelFamily == m0.modelFamily) then
    some .incompatibleModels
  else if ¬ rest.all (fun m => m.tokenizerFamily == m0.tokenizerFamily) then
    some .incompatibleTokenizers
  else
    none

/-- Modelled from the spec: the library call
`_prepare_encoder_decoder_kwargs_for_generation` (not part of this
repository) runs the encoder of the model it is invoked on over the input
ids and stores the result under `encoder_outputs` in `model_kwargs`.  Line
68 of the source invokes it on `self.models[0]`. -/
def prepEncoderDecoderKwargs (m : Member) (inputIds : List Nat)
    (kwargs : ModelKwargs) : ModelKwargs :=
  { kwargs with encoderOutputs := some (m.encoder inputIds) }

/-- Modelled from the spec: the library call
`_prepare_decoder_input_ids_for_generation` (not part of this repository)
constructs an initial decoder-input sequence seeded from the configured
start token, falling back to the begin-of-sequence token. -/
def prepDecoderInputIds (decoderStart bos : Option Nat) : Option (List Nat) :=
  match decoderStart with
  | some t => some [t]
  | none =>
    match bos with
    | some t => some [t]
    | none => none

/-- Lines 24-115 of the source: the pre-loop phase of
`generate_greedy_search` — compatibility checks, resolution of the
generation parameters from the reference member, tokenization of the
prefixed source text, and (for encoder-decoder models) encoder execution
and decoder-input construction.  The `decoder_input_ids` key is never
present in `model_kwargs` at line 71, so only the `else` branch of that
test is modelled.  The warning prints (pad substitution notice, input
already at maximum length) have no semantic effect and are omitted. -/
def prepareGeneration (m0 : Member) (rest : List Member) (srcText : String) :
    Except GenError PrepState :=
  match checkCompatibility m0 rest with
  | some e => .error e
  | none =>
    let maxLength := m0.config.maxLength
    let padTokenId := resolvePadTokenId m0.config.padTokenId m0.config.eosTokenId
    let eosTokenId := m0.config.eosTokenId
    let srcIds := m0.tokenize ("summarize: " ++ srcText)
    let kwargs0 : ModelKwargs :=
      { attentionMask := List.replicate srcIds.length 1,
        encoderOutputs := none, cache := none, useCache := false }
    if m0.config.isEncoderDecoder then
      let kwargs1 := prepEncoderDecoderKwargs m0 srcIds kwargs0
      match prepDecoderInputIds m0.tokenizerPadTokenId m0.config.bosTokenId with
      | none => .error .missingStartToken
      | some decoderIds =>
        if kwargs1.encoderOutputs = none then .error .missingEncoderOutputs
        else
          .ok { inputIds := decoderIds, kwargs := { kwargs1 with useCache := true },
                maxLength := maxLength, padTokenId := padTokenId,
                eosTokenId := eosTokenId }
    else
      .ok { inputIds := srcIds, kwargs := { kwargs0 with useCache := true },
            maxLength := maxLength, padTokenId := padTokenId,
            eosTokenId := eosTokenId }

/-- Maximum of a list of rationals (`torch.max(·, dim=0)` over the stacked
member scores, at one vocabulary index). -/
def listMax : List ℚ → ℚ
  | [] => 0
  | x :: xs => xs.foldl max x

/-- Line 135 of the source: elementwise arithmetic mean across the
members' score vectors (`torch.mean(·, dim=0, keepdim=True)` on the
concatenation along the member dimension). -/
def poolMean (vs : List (Nat → ℚ)) : Nat → ℚ :=
  fun i => ((vs.map (fun v => v i)).sum) / (vs.length : ℚ)

/-- Line 137 of the source: elementwise maximum across the members' score
vectors. -/
def poolMax (vs : List (Nat → ℚ)) : Nat → ℚ :=
  fun i => listMax (vs.map (fun v => v i))

/-- Lines 134-139 of the source: dispatch on `pool_type`, raising a
`ValueError` on an unrecognized mode. -/
def poolScores (poolType : String) (vs : List (Nat → ℚ)) :
    Except GenError (Nat → ℚ) :=
  if poolType = "mean" then .ok (poolMean vs)
  else if poolType = "max" then .ok (poolMax vs)
  else .error .unrecognizedPoolType

/-- Modelled from the spec: the logits-processor chain obtained at lines
88-103 (a library call outside this repository) is, with every constraint
argument `None` and `num_beams = 1`, a no-op chain; the hook point is kept
but transforms nothing. -/
def logitsProcessorChain (_inputIds : List Nat) (scores : Nat → ℚ) : Nat → ℚ :=
  scores

/-- Line 142 of the source: `torch.argmax` over the processed score
vector, over vocabulary indices `0 .. vocab-1`; ties resolve to the lowest
index. -/
def argmax (vocab : Nat) (v : Nat → ℚ) : Nat :=
  (List.range vocab).foldl (fun best i => if v best < v i then i else best) 0

/-- Lines 123-132 of the source: every member's forward step is run on the
same prepared inputs and the last position of each `outputs.logits` is
collected. -/
def memberLogits (members : List Member) (inputIds : List Nat)
    (kwargs : ModelKwargs) : List (Nat → ℚ) :=
  members.map (fun m => (m.forward inputIds kwargs).logits)

/-- Modelled from the spec: the library call
`_update_seq_length_for_generation` (not part of this repository) — a row
that is still unfinished and produced the end token this step becomes
finished and records the current length; already-finished rows are
unchanged. -/
def updateSeqLength (seqLen : Nat) (unfinished : Bool) (curLen : Nat)
    (isEos : Bool) : Nat × Bool :=
  (if unfinished && isEos then curLen else seqLen, unfinished && !isEos)

/-- Modelled from the spec: the library call
`_update_model_kwargs_for_generation` (not part of this repository)
re-derives the shared decode state for the next iteration from one step's
outputs — the cache advances to the outputs' cache, and for decoder-only
models the attention mask grows by one position. -/
def updateModelKwargs (o : Outputs) (kwargs : ModelKwargs)
    (isEncoderDecoder : Bool) : ModelKwargs :=
  { kwargs with
    cache := some o.cache,
    attentionMask :=
      if isEncoderDecoder then kwargs.attentionMask
      else kwargs.attentionMask ++ [1] }

/-- Lines 121-167 of the source: one body of the decoding loop.  The
inputs for this step are prepared once from the shared sequence and the
shared `model_kwargs` and every member's forward step receives them
(lines 121-131); the collected last-position scores are pooled (134-139)
and processed (141); the next token is selected by argmax (142), with
finished rows forced to the pad token under the assertion that a pad
token exists whenever an end token does (144-146); the token is appended
(149) and the termination bookkeeping updated (152-155); `model_kwargs`
is updated from `outputs`, which after the member loop holds the *last*
member's outputs, using the *last* member's encoder-decoder flag (157-160);
finally the two `break` conditions are evaluated (162-167).  `cur_len`
advances in the loop driver. -/
def stepOnce (m0 : Member) (rest : List Member) (poolType : String)
    (maxLength : Nat) (padTokenId eosTokenId : Option Nat) (s : LoopState) :
    Except GenError StepResult :=
  let members := m0 :: rest
  let outputsList := members.map (fun m => m.forward s.inputIds s.kwargs)
  match poolScores poolType (memberLogits members s.inputIds s.kwargs) with
  | .error e => .error e
  | .ok pooled =>
    let scores := logitsProcessorChain s.inputIds pooled
    let nextTokenArg := argmax m0.vocab scores
    match eosTokenId with
    | some eos =>
      match padTokenId with
      | none => .error .padAssertionFailed
      | some pad =>
        let nextTok := if s.unfinished then nextTokenArg else pad
        let inputIds' := s.inputIds ++ [nextTok]
        let su := updateSeqLength s.sequenceLength s.unfinished s.curLen (nextTok == eos)
        let kwargs' := updateModelKwargs (outputsList.getLastD defaultOutputs)
          s.kwargs (members.getLastD m0).config.isEncoderDecoder
        let brk := (!su.2) || decide (maxLength ≤ inputIds'.length)
        .ok { inputIds := inputIds', kwargs := kwargs',
              sequenceLength := su.1, unfinished := su.2, doBreak := brk }
    | none =>
      let nextTok := nextTokenArg
      let inputIds' := s.inputIds ++ [nextTok]
      let kwargs' := updateModelKwargs (outputsList.getLastD defaultOutputs)
        s.kwargs (members.getLastD m0).config.isEncoderDecoder
      let brk := (!s.unfinished) || decide (maxLength ≤ inputIds'.length)
      .ok { inputIds := inputIds', kwargs := kwargs',
            sequenceLength := s.sequenceLength, unfinished := s.unfinished,
            doBreak := brk }

/-- Lines 119-170 of the source: the `while cur_len < max_length` loop.
`cur_len` grows by one per full iteration, so the remaining fuel
`max_length - cur_len` (supplied by `generate`) bounds the recursion and
runs out exactly when the guard fails.  The second component counts the
loop iterations executed. -/
def decodeLoop (m0 : Member) (rest : List Member) (poolType : String)
    (maxLength : Nat) (padTokenId eosTokenId : Option Nat) :
    Nat → LoopState → Except GenError (LoopState × Nat)
  | 0, s => .ok (s, 0)
  | fuel + 1, s =>
    if s.curLen < maxLength then
      match stepOnce m0 rest poolType maxLength padTokenId eosTokenId s with
      | .error e => .error e
      | .ok r =>
        let s' : LoopState :=
          { inputIds := r.inputIds, kwargs := r.kwargs,
            sequenceLength := r.sequenceLength, unfinished := r.unfinished,
            curLen := s.curLen }
        if r.doBreak then .ok (s', 1)
        else
          match decodeLoop m0 rest poolType maxLength padTokenId eosTokenId
              fuel { s' with curLen := s.curLen + 1 } with
          | .error e => .error e
          | .ok (t, n) => .ok (t, n + 1)
    else .ok (s, 0)

/-- Lines 111-113 of the source: the library call
`_init_sequence_length_for_generation` fills `sequence_lengths` with
`max_length`, sets every row unfinished, and starts `cur_len` at the
current sequence length. -/
def initialState (p : PrepState) : LoopState :=
  { inputIds := p.inputIds, kwargs := p.kwargs, sequenceLength := p.maxLength,
    unfinished := true, curLen := p.inputIds.length }

/-- The whole of `generate_greedy_search` (lines 24-175): preparation,
the decoding loop, and detokenization of row 0 of the final sequence
(`convert_ids_to_tokens` / `convert_tokens_to_string` and the final
`replace` are tokenizer behaviour, folded into `detokenize`). -/
def generate (m0 : Member) (rest : List Member) (srcText poolType : String) :
    Except GenError String :=
  match prepareGeneration m0 rest srcText with
  | .error e => .error e
  | .ok p =>
    match decodeLoop m0 rest poolType p.maxLength p.padTokenId p.eosTokenId
        (p.maxLength - p.inputIds.length) (initialState p) with
    | .error e => .error e
    | .ok (sF, _) => .ok (m0.detokenize sF.inputIds)

/-- Replace a member's forward function, leaving everything else (family
tags, config, tokenizer, encoder) unchanged.  Used to state that a result
was produced without executing any model forward pass. -/
def withForward (m : Member) (f : List Nat → ModelKwargs → Outputs) : Member :=
  { m with forward := f }

/-- Modelled from the spec: one step of single-model greedy decoding —
the model's own next-token scores are used directly (no pooling), the
highest-scoring token is selected, finished rows are frozen to the pad
token, and the decode state advances from this model's own outputs. -/
def singleStep (m : Member) (maxLength : Nat) (padTokenId eosTokenId : Option Nat)
    (s : LoopState) : Except GenError StepResult :=
  let o := m.forward s.inputIds s.kwargs
  let scores := logitsProcessorChain s.inputIds o.logits
  let nextTokenArg := argmax m.vocab scores
  match eosTokenId with
  | some eos =>
    match padTokenId with
    | none => .error .padAssertionFailed
    | some pad =>
      let nextTok := if s.unfinished then nextTokenArg else pad
      let inputIds' := s.inputIds ++ [nextTok]
      let su := updateSeqLength s.sequenceLength s.unfinished s.curLen (nextTok == eos)
      let kwargs' := updateModelKwargs o s.kwargs m.config.isEncoderDecoder
      let brk := (!su.2) || decide (maxLength ≤ inputIds'.length)
      .ok { inputIds := inputIds', kwargs := kwargs',
            sequenceLength := su.1, unfinished := su.2, doBreak := brk }
  | none =>
    let nextTok := nextTokenArg
    let inputIds' := s.inputIds ++ [nextTok]
    let kwargs' := updateModelKwargs o s.kwargs m.config.isEncoderDecoder
    let brk := (!s.unfinished) || decide (maxLength ≤ inputIds'.length)
    .ok { inputIds := inputIds', kwargs := kwargs',
          sequenceLength := s.sequenceLength, unfinished := s.unfinished,
          doBreak := brk }

/-- Modelled from the spec: the decoding loop of single-model greedy
decoding, identical in structure to the ensemble loop but driven by
`singleStep`. -/
def singleLoop (m : Member) (maxLength : Nat) (padTokenId eosTokenId : Option Nat) :
    Nat → LoopState → Except GenError (LoopState × Nat)
  | 0, s => .ok (s, 0)
  | fuel + 1, s =>
    if s.curLen < maxLength then
      match singleStep m maxLength padTokenId eosTokenId s with
      | .error e => .error e
      | .ok r =>
        let s' : LoopState :=
          { inputIds := r.inputIds, kwargs := r.kwargs,
            sequenceLength := r.sequenceLength, unfinished := r.unfinished,
            curLen := s.curLen }
        if r.doBreak then .ok (s', 1)
        else
          match singleLoop m maxLength padTokenId eosTokenId fuel
              { s' with curLen := s.curLen + 1 } with
          | .error e => .error e
          | .ok (t, n) => .ok (t, n + 1)
    else .ok (s, 0)

/-- Modelled from the spec: single-model greedy decoding of the prepared
input — the reference against which a size-1 ensemble is compared. -/
def singleGreedy (m : Member) (srcText : String) : Except GenError String :=
  match prepareGeneration m [] srcText with
  | .error e => .error e
  | .ok p =>
    match singleLoop m p.maxLength p.padTokenId p.eosTokenId
        (p.maxLength - p.inputIds.length) (initialState p) with
    | .error e => .error e
    | .ok (sF, _) => .ok (m.detokenize sF.inputIds)

/-! Concrete ensembles used to instantiate the theorems below. -/

/-- Configuration of the decoder-only cache-probe members `cA`/`cB`. -/
def cfgAB : Config :=
  { maxLength := 4, padTokenId := some 0, eosTokenId := none,
    bosTokenId := none, numBeamGroups := 1, isEncoderDecoder := false }

/-- Decoder-only member whose score depends on the cached decode state it
receives and which emits cache `[10]`. -/
def cA : Member :=
  { modelFamily := 0, tokenizerFamily := 0, config := cfgAB,
    tokenizerPadTokenId := some 0, vocab := 1,
    tokenize := fun _ => [0], detokenize := fun _ => "",
    encoder := fun _ => [],
    forward := fun _ kw =>
      { logits := fun _ => ((kw.cache.getD []).headD 0), cache := [10] } }

/-- Decoder-only member with constant zero scores emitting cache `[20]`. -/
def cB : Member :=
  { modelFamily := 0, tokenizerFamily := 0, config := cfgAB,
    tokenizerPadTokenId := some 0, vocab := 1,
    tokenize := fun _ => [0], detokenize := fun _ => "",
    encoder := fun _ => [],
    forward := fun _ _ => { logits := fun _ => 0, cache := [20] } }

/-- The loop state entering the first decoding step of
`generate cA [cB]` (and of `generate cB [cA]`). -/
def exS0 : LoopState :=
  { inputIds := [0],
    kwargs := { attentionMask := [1], encoderOutputs := none, cache := none,
                useCache := true },
    sequenceLength := 4, unfinished := true, curLen := 1 }

/-- Member `cA` with a mismatching tokenizer family. -/
def cG : Member :=
  { cA with tokenizerFamily := 1 }

/-- Configuration of the encoder-decoder members `cC`/`cD`. -/
def cfgCD : Config :=
  { maxLength := 4, padTokenId := some 0, eosTokenId := some 1,
    bosTokenId := some 0, numBeamGroups := 1, isEncoderDecoder := true }

/-- Encoder-decoder member whose encoder yields `[1]`. -/
def cC : Member :=
  { modelFamily := 0, tokenizerFamily := 0, config := cfgCD,
    tokenizerPadTokenId := some 0, vocab := 2,
    tokenize := fun _ => [0, 1], detokenize := fun _ => "o",
    encoder := fun _ => [1],
    forward := fun _ _ => { logits := fun _ => 0, cache := [] } }

/-- Encoder-decoder member whose encoder yields `[2]`. -/
def cD : Member :=
  { cC with encoder := fun _ => [2] }

/-- The preparation result of `prepareGeneration cC [cD] "x"`. -/
def pCD : PrepState :=
  { inputIds := [0],
    kwargs := { attentionMask := [1, 1], encoderOutputs := some [1],
                cache := none, useCache := true },
    maxLength := 4, padTokenId := some 0, eosTokenId := some 1 }

/-- Decoder-only member whose tokenized input already has length
`max_length`. -/
def cE : Member :=
  { modelFamily := 0, tokenizerFamily := 0,
    config := { maxLength := 1, padTokenId := some 0, eosTokenId := none,
                bosTokenId := none, numBeamGroups := 1, isEncoderDecoder := false },
    tokenizerPadTokenId := some 0, vocab := 1,
    tokenize := fun _ => [0], detokenize := fun _ => "out",
    encoder := fun _ => [], forward := fun _ _ => defaultOutputs }

/-- The preparation result of `prepareGeneration cE [] "x"`. -/
def pE : PrepState :=
  { inputIds := [0],
    kwargs := { attentionMask := [1], encoderOutputs := none, cache := none,
                useCache := true },
    maxLength := 1, padTokenId := some 0, eosTokenId := none }

/-- Decoder-only member with an end token that is never produced (its
argmax token is always 0 while `eos = 5`), pad token 7, `max_length` 4. -/
def cF : Member :=
  { modelFamily := 0, tokenizerFamily := 0,
    config := { maxLength := 4, padTokenId := some 7, eosTokenId := some 5,
                bosTokenId := none, numBeamGroups := 1, isEncoderDecoder := false },
    tokenizerPadTokenId := some 7, vocab := 2,
    tokenize := fun _ => [3], detokenize := fun _ => "res",
    encoder := fun _ => [],
    forward := fun _ _ =>
      { logits := fun i => if i == 0 then 1 else 0, cache := [] } }

/-- The preparation result of `prepareGeneration cF [] text`. -/
def pF : PrepState :=
  { inputIds := [3],
    kwargs := { attentionMask := [1], encoderOutputs := none, cache := none,
                useCache := true },
    maxLength := 4, padTokenId := some 7, eosTokenId := some 5 }

/-- A loop state for `cF` whose single row is already finished. -/
def sFin : LoopState :=
  { inputIds := [3], kwargs := pF.kwargs, sequenceLength := 2,
    unfinished := false, curLen := 1 }

/-- The loop state after running `decodeLoop` for `cF` from `sFin`:
one iteration appends the pad token and breaks. -/
def sFinAfter : LoopState :=
  { inputIds := [3, 7],
    kwargs := { attentionMask := [1, 1], encoderOutputs := none,
                cache := some [], useCache := true },
    sequenceLength := 2, unfinished := false, curLen := 1 }

/-- The step result of the first iteration of `generate cF [] text
"mean"`. -/
def r0F : StepResult :=
  { inputIds := [3, 0],
    kwargs := { attentionMask := [1, 1], encoderOutputs := none,
                cache := some [], useCache := true },
    sequenceLength := 4, unfinished := true, doBreak := false }

/-- The final loop state of `generate cF [] text "mean"`: three
iterations append token 0 each, then the length bound breaks. -/
def sEndF : LoopState :=
  { inputIds := [3, 0, 0, 0],
    kwargs := { attentionMask := [1, 1, 1, 1], encoderOutputs := none,
                cache := some [], useCache := true },
    sequenceLength := 4, unfinished := true, curLen := 3 }

/-- The step result of the first iteration of `generate cA [cB] srcText
"mean"`: the shared cache is updated to `cB`'s (the last member's). -/
def rAB : StepResult :=
  { inputIds := [0, 0],
    kwargs := { attentionMask := [1, 1], encoderOutputs := none,
                cache := some [20], useCache := true },
    sequenceLength := 4, unfinished := true, doBreak := false }

/-- Constant score vector with value 1. -/
def vEx : Nat → ℚ := fun _ => 1

/-- Constant score vector with value 3. -/
def wEx : Nat → ℚ := fun _ => 3

end Intunlu

deriving instance DecidableEq for Except

namespace Intunlu

/-! Helper lemmas. -/

/-- Mean pooling over a single score vector is that vector. -/
theorem poolMean_singleton (v : Nat → ℚ) : poolMean [v] = v := by
  funext i
  simp [poolMean]

/-- Max pooling over a single score vector is that vector. -/
theorem poolMax_singleton (v : Nat → ℚ) : poolMax [v] = v := by
  funext i
  simp [poolMax, listMax]

/-- The initial accumulator and every list element bound a `max` fold. -/
theorem le_foldl_max (l : List ℚ) :
    ∀ a : ℚ, a ≤ l.foldl max a ∧ ∀ x ∈ l, x ≤ l.foldl max a := by
  induction l with
  | nil => intro a; simp
  | cons y ys ih =>
    intro a
    refine ⟨le_trans (le_max_left a y) (ih (max a y)).1, ?_⟩
    intro x hx
    rcases List.mem_cons.mp hx with rfl | hx
    · exact le_trans (le_max_right a x) (ih (max a x)).1
    · exact (ih (max a y)).2 x hx

/-- A `max` fold returns its accumulator or a list element. -/
theorem foldl_max_choice (l : List ℚ) :
    ∀ a : ℚ, l.foldl max a = a ∨ l.foldl max a ∈ l := by
  induction l with
  | nil => intro a; simp
  | cons y ys ih =>
    intro a
    rcases ih (max a y) with h | h
    · rcases max_choice a y with hm | hm
      · left; rw [List.foldl_cons, h, hm]
      · right; rw [List.foldl_cons, h, hm]; exact List.mem_cons_self y ys
    · right
      refine List.mem_cons_of_mem _ ?_
      rw [List.foldl_cons]
      exact h

/-- Every element of a list is bounded by `listMax`. -/
theorem listMax_le (l : List ℚ) (x : ℚ) (hx : x ∈ l) : x ≤ listMax l := by
  cases l with
  | nil => cases hx
  | cons y ys =>
    rcases List.mem_cons.mp hx with rfl | hx
    · exact (le_foldl_max ys x).1
    · exact (le_foldl_max ys y).2 x hx

/-- `listMax` of a nonempty list is one of its elements. -/
theorem listMax_mem (l : List ℚ) (hl : l ≠ []) : listMax l ∈ l := by
  cases l with
  | nil => exact absurd rfl hl
  | cons y ys =>
    show ys.foldl max y ∈ y :: ys
    rcases foldl_max_choice ys y with h | h
    · rw [h]; exact List.mem_cons_self y ys
    · exact List.mem_cons_of_mem _ h

/-- `listMax` is invariant under permutation. -/
theorem listMax_perm (l l' : List ℚ) (h : l.Perm l') : listMax l = listMax l' := by
  rcases eq_or_ne l [] with rfl | hl
  · rw [← h.nil_eq]
  · have hl' : l' ≠ [] := by
      intro e
      subst e
      exact hl h.eq_nil
    exact le_antisymm
      (listMax_le l' _ (h.mem_iff.mp (listMax_mem l hl)))
      (listMax_le l _ (h.mem_iff.mpr (listMax_mem l' hl')))

/-- On a one-member ensemble with a recognized pooling mode, one ensemble
step coincides with one single-model greedy step. -/
theorem stepOnce_single (m : Member) (poolType : String)
    (hpt : poolType = "mean" ∨ poolType = "max") (maxLength : Nat)
    (padTokenId eosTokenId : Option Nat) (s : LoopState) :
    stepOnce m [] poolType maxLength padTokenId eosTokenId s =
      singleStep m maxLength padTokenId eosTokenId s := by
  rcases hpt with h | h <;> subst h <;>
    simp only [stepOnce, singleStep, poolScores, memberLogits, List.map,
      List.getLastD, List.getLast_singleton, if_pos, if_neg, String.reduceEq,
      ite_true, ite_false, poolMean_singleton, poolMax_singleton, reduceIte]

/-- On a one-member ensemble with a recognized pooling mode, the ensemble
decoding loop coincides with the single-model greedy loop. -/
theorem decodeLoop_single (m : Member) (poolType : String)
    (hpt : poolType = "mean" ∨ poolType = "max") (maxLength : Nat)
    (padTokenId eosTokenId : Option Nat) :
    ∀ fuel s, decodeLoop m [] poolType maxLength padTokenId eosTokenId fuel s =
      singleLoop m maxLength padTokenId eosTokenId fuel s := by
  intro fuel
  induction fuel with
  | zero => intro s; rfl
  | succ k ih =>
    intro s
    simp only [decodeLoop, singleLoop, stepOnce_single m poolType hpt, ih]

/-- A successful loop body appends exactly one token to the shared
sequence. -/
theorem stepOnce_length (m0 : Member) (rest : List Member) (poolType : String)
    (maxLength : Nat) (padTokenId eosTokenId : Option Nat) (s : LoopState)
    (r : StepResult)
    (h : stepOnce m0 rest poolType maxLength padTokenId eosTokenId s = .ok r) :
    r.inputIds.length = s.inputIds.length + 1 := by
  simp only [stepOnce] at h
  split at h
  · exact absurd h (by simp)
  · split at h
    · split at h
      · exact absurd h (by simp)
      · cases h; simp
    · cases h; simp

/-- A successful loop run appends one token per iteration and executes at
most `fuel` iterations. -/
theorem decodeLoop_length (m0 : Member) (rest : List Member) (poolType : String)
    (maxLength : Nat) (padTokenId eosTokenId : Option Nat) :
    ∀ fuel s t n,
      decodeLoop m0 rest poolType maxLength padTokenId eosTokenId fuel s =
        .ok (t, n) →
      t.inputIds.length = s.inputIds.length + n ∧ n ≤ fuel := by
  intro fuel
  induction fuel with
  | zero =>
    intro s t n h
    cases h
    simp
  | succ k ih =>
    intro s t n h
    simp only [decodeLoop] at h
    split at h
    · split at h
      · exact absurd h (by simp)
      · rename_i r hr
        split at h
        · cases h
          have hlen := stepOnce_length m0 rest poolType maxLength padTokenId
            eosTokenId s r hr
          exact ⟨hlen, by omega⟩
        · split at h
          · exact absurd h (by simp)
          · rename_i t' n' hrec
            cases h
            have hlen := stepOnce_length m0 rest poolType maxLength padTokenId
              eosTokenId s r hr
            obtain ⟨h1, h2⟩ := ih _ _ _ hrec
            constructor
            · simp only at h1
              omega
            · omega
    · cases h
      simp

/-- Field projections of a successful preparation: the generation
parameters come from the reference member, with the pad token resolved
from the end token when absent. -/
theorem prepareGeneration_fields (m0 : Member) (rest : List Member)
    (srcText : String) (p : PrepState)
    (h : prepareGeneration m0 rest srcText = .ok p) :
    p.maxLength = m0.config.maxLength ∧
    p.padTokenId = resolvePadTokenId m0.config.padTokenId m0.config.eosTokenId ∧
    p.eosTokenId = m0.config.eosTokenId := by
  simp only [prepareGeneration] at h
  split at h
  · exact absurd h (by simp)
  · split at h
    · split at h
      · exact absurd h (by simp)
      · split at h
        · exact absurd h (by simp)
        · cases h; exact ⟨rfl, rfl, rfl⟩
    · cases h; exact ⟨rfl, rfl, rfl⟩

/-- The resolved pad token exists whenever the end token does. -/
theorem resolvePadTokenId_isSome (pad eos : Option Nat) (h : eos.isSome = true) :
    (resolvePadTokenId pad eos).isSome = true := by
  cases pad <;> cases eos <;> simp_all [resolvePadTokenId]

/-- The pooling dispatch only ever fails with the unrecognized-mode
error. -/
theorem poolScores_error (poolType : String) (vs : List (Nat → ℚ)) (e : GenError)
    (h : poolScores poolType vs = .error e) : e = .unrecognizedPoolType := by
  simp only [poolScores] at h
  split at h
  · exact absurd h (by simp)
  · split at h
    · exact absurd h (by simp)
    · simp only [Except.error.injEq] at h
      exact h.symm

/-- With an unrecognized pooling mode the loop body fails with the
`ValueError` of lines 138-139, before any pooled score is produced. -/
theorem stepOnce_badPool (m0 : Member) (rest : List Member) (poolType : String)
    (h1 : poolType ≠ "mean") (h2 : poolType ≠ "max") (maxLength : Nat)
    (padTokenId eosTokenId : Option Nat) (s : LoopState) :
    stepOnce m0 rest poolType maxLength padTokenId eosTokenId s =
      .error .unrecognizedPoolType := by
  simp [stepOnce, poolScores, h1, h2]

/-- A loop body run from a finished row (with pad and end tokens
configured) appends exactly the pad token, leaves the recorded sequence
length unchanged, keeps the row finished, and breaks. -/
theorem stepOnce_finished (m0 : Member) (rest : List Member) (poolType : String)
    (maxLength : Nat) (pad eos : Nat) (s : LoopState) (r : StepResult)
    (hfin : s.unfinished = false)
    (h : stepOnce m0 rest poolType maxLength (some pad) (some eos) s = .ok r) :
    r.inputIds = s.inputIds ++ [pad] ∧ r.sequenceLength = s.sequenceLength ∧
    r.unfinished = false ∧ r.doBreak = true := by
  simp only [stepOnce] at h
  split at h
  · exact absurd h (by simp)
  · cases h
    simp [hfin, updateSeqLength]

/-! Claim theorems. -/

/-- C1, corrected: for encoder-decoder architectures, input preparation
runs only the reference (first) member's encoder; the prepared per-call
state carries the reference member's encoder output on the tokenized
input, and it is this single shared output every member is seeded with. -/
theorem C1_theorem (m0 : Member) (rest : List Member) (srcText : String)
    (p : PrepState) (henc : m0.config.isEncoderDecoder = true)
    (hprep : prepareGeneration m0 rest srcText = .ok p) :
    p.kwargs.encoderOutputs =
      some (m0.encoder (m0.tokenize ("summarize: " ++ srcText))) := by
  simp only [prepareGeneration, henc, if_true, prepEncoderDecoderKwargs] at hprep
  split at hprep
  · exact absurd hprep (by simp)
  · split at hprep
    · exact absurd hprep (by simp)
    · split at hprep
      · exact absurd hprep (by simp)
      · cases hprep; rfl

/-- C1 counterexample: in the two-member encoder-decoder ensemble
`cC, cD` with distinct encoders, preparation seeds the shared state with
`cC`'s encoder output `[1]`, not with member `cD`'s own output `[2]` — so
members do share encoder output, against the claim. -/
theorem C1_counterexample :
    (prepareGeneration cC [cD] "x").map (fun p => p.kwargs.encoderOutputs) =
      .ok (some [1]) ∧
    cD.encoder (cC.tokenize ("summarize: " ++ "x")) = [2] ∧
    ([1] : List ℚ) ≠ [2] :=
  ⟨by with_unfolding_all decide, by with_unfolding_all decide,
    by with_unfolding_all decide⟩

/-- C1 witness: the amended statement evaluated on the concrete
encoder-decoder ensemble `cC, cD`. -/
theorem C1_witness :
    cC.config.isEncoderDecoder = true ∧
    prepareGeneration cC [cD] "x" = .ok pCD ∧
    pCD.kwargs.encoderOutputs =
      some (cC.encoder (cC.tokenize ("summarize: " ++ "x"))) :=
  ⟨rfl, by with_unfolding_all decide,
    C1_theorem cC [cD] "x" pCD rfl (by with_unfolding_all decide)⟩

/-- C2, corrected: at every decoding step all members' forward steps
receive the same shared sequence and the same shared state bundle, and
the state's incremental decode cache for the next step is the one
produced by the *last* member of the list — members do not own private
caches. -/
theorem C2_theorem (m0 : Member) (rest : List Member) (poolType : String)
    (maxLength : Nat) (padTokenId eosTokenId : Option Nat) (s : LoopState)
    (r : StepResult)
    (h : stepOnce m0 rest poolType maxLength padTokenId eosTokenId s = .ok r) :
    r.kwargs.cache =
      some (((m0 :: rest).map
        (fun m => m.forward s.inputIds s.kwargs)).getLastD defaultOutputs).cache := by
  simp only [stepOnce] at h
  split at h
  · exact absurd h (by simp)
  · split at h
    · split at h
      · exact absurd h (by simp)
      · cases h; simp [updateModelKwargs]
    · cases h; simp [updateModelKwargs]

/-- C2 counterexample: after one step of `generate cA [cB]`, the cache in
the shared state every member will consume next step is `cB`'s `[20]`,
not member `cA`'s own `[10]` — `cA` does not exclusively own the cache it
decodes with. -/
theorem C2_counterexample :
    stepOnce cA [cB] "mean" 4 (some 0) none exS0 = .ok rAB ∧
    rAB.kwargs.cache = some [20] ∧
    (cA.forward exS0.inputIds exS0.kwargs).cache = [10] ∧
    some ([20] : List ℚ) ≠ some [10] :=
  ⟨by with_unfolding_all decide, by with_unfolding_all decide,
    by with_unfolding_all decide, by with_unfolding_all decide⟩

/-- C2 witness: the amended statement evaluated on the concrete ensemble
`cA, cB`. -/
theorem C2_witness :
    stepOnce cA [cB] "mean" 4 (some 0) none exS0 = .ok rAB ∧
    rAB.kwargs.cache =
      some (((cA :: [cB]).map
        (fun m => m.forward exS0.inputIds exS0.kwargs)).getLastD defaultOutputs).cache :=
  ⟨by with_unfolding_all decide,
    C2_theorem cA [cB] "mean" 4 (some 0) none exS0 rAB (by with_unfolding_all decide)⟩

/-- C3, confirmed: with pad and end tokens configured, running the
decoding loop from a state whose row is already finished leaves the
recorded sequence length unchanged, keeps the row finished, and every
token appended after the finish is the pad token. -/
theorem C3_theorem (m0 : Member) (rest : List Member) (poolType : String)
    (maxLength : Nat) (pad eos : Nat) (fuel : Nat) (s t : LoopState) (n : Nat)
    (hfin : s.unfinished = false)
    (h : decodeLoop m0 rest poolType maxLength (some pad) (some eos) fuel s =
      .ok (t, n)) :
    t.sequenceLength = s.sequenceLength ∧ t.unfinished = false ∧
    t.inputIds = s.inputIds ++ List.replicate n pad := by
  cases fuel with
  | zero => cases h; exact ⟨rfl, hfin, by simp⟩
  | succ k =>
    simp only [decodeLoop] at h
    split at h
    · split at h
      · exact absurd h (by simp)
      · rename_i r hr
        obtain ⟨hi, hs, hu, hb⟩ :=
          stepOnce_finished m0 rest poolType maxLength pad eos s r hfin hr
        rw [hb] at h
        simp only [if_true] at h
        cases h
        exact ⟨hs, hu, by simp [hi]⟩
    · cases h; exact ⟨rfl, hfin, by simp⟩

/-- C3 witness: the statement evaluated for the concrete member `cF` from
the finished state `sFin`: one pad token is appended and the recorded
length survives. -/
theorem C3_witness :
    sFin.unfinished = false ∧
    decodeLoop cF [] "mean" 4 (some 7) (some 5) 3 sFin = .ok (sFinAfter, 1) ∧
    (sFinAfter.sequenceLength = sFin.sequenceLength ∧
     sFinAfter.unfinished = false ∧
     sFinAfter.inputIds = sFin.inputIds ++ List.replicate 1 7) :=
  ⟨rfl, by with_unfolding_all decide,
    C3_theorem cF [] "mean" 4 7 5 3 sFin sFinAfter 1 rfl
      (by with_unfolding_all decide)⟩

/-- C4, confirmed: each successful loop body appends exactly one token to
the shared sequence, and a successful loop run started with the fuel
`generate` supplies performs at most `max_length` minus the initial
sequence length iterations, growing the sequence by exactly the iteration
count. -/
theorem C4_theorem (m0 : Member) (rest : List Member) (poolType : String)
    (maxLength : Nat) (padTokenId eosTokenId : Option Nat) (fuel : Nat)
    (s t : LoopState) (n : Nat) (r : StepResult)
    (hstep : stepOnce m0 rest poolType maxLength padTokenId eosTokenId s = .ok r)
    (hfuel : fuel ≤ maxLength - s.inputIds.length)
    (h : decodeLoop m0 rest poolType maxLength padTokenId eosTokenId fuel s =
      .ok (t, n)) :
    r.inputIds.length = s.inputIds.length + 1 ∧
    t.inputIds.length = s.inputIds.length + n ∧
    n ≤ maxLength - s.inputIds.length := by
  obtain ⟨h1, h2⟩ :=
    decodeLoop_length m0 rest poolType maxLength padTokenId eosTokenId fuel s t n h
  exact ⟨stepOnce_length m0 rest poolType maxLength padTokenId eosTokenId s r hstep,
    h1, le_trans h2 hfuel⟩

/-- C4 witness: the statement evaluated on the concrete run of
`generate cF`: three iterations, three tokens appended, bound `4 - 1`. -/
theorem C4_witness :
    stepOnce cF [] "mean" 4 (some 7) (some 5) (initialState pF) = .ok r0F ∧
    (3 : Nat) ≤ 4 - (initialState pF).inputIds.length ∧
    decodeLoop cF [] "mean" 4 (some 7) (some 5) 3 (initialState pF) =
      .ok (sEndF, 3) ∧
    (r0F.inputIds.length = (initialState pF).inputIds.length + 1 ∧
     sEndF.inputIds.length = (initialState pF).inputIds.length + 3 ∧
     3 ≤ 4 - (initialState pF).inputIds.length) :=
  ⟨by with_unfolding_all decide, by decide, by with_unfolding_all decide,
    C4_theorem cF [] "mean" 4 (some 7) (some 5) 3 (initialState pF) sEndF 3 r0F
      (by with_unfolding_all decide) (by decide) (by with_unfolding_all decide)⟩

/-- C5, confirmed: on a one-member ensemble, mean and max pooling are the
identity on the single member's score vector, and the whole generation
call coincides with single-model greedy decoding. -/
theorem C5_theorem (m : Member) (srcText : String) (v : Nat → ℚ) (i : Nat) :
    poolMean [v] i = v i ∧ poolMax [v] i = v i ∧
    generate m [] srcText "mean" = singleGreedy m srcText ∧
    generate m [] srcText "max" = singleGreedy m srcText := by
  refine ⟨congrFun (poolMean_singleton v) i, congrFun (poolMax_singleton v) i,
    ?_, ?_⟩
  · simp only [generate, singleGreedy, decodeLoop_single m "mean" (Or.inl rfl)]
  · simp only [generate, singleGreedy, decodeLoop_single m "max" (Or.inr rfl)]

/-- C6, corrected: the pooling reductions themselves are invariant under
permuting the list of member score vectors, for both mean and max mode
(but the pooled score at later decoding steps is not invariant under
permuting the member list, because the shared cache is taken from the
last member — see the counterexample). -/
theorem C6_theorem (vs vs' : List (Nat → ℚ)) (i : Nat) (h : vs.Perm vs') :
    poolMean vs i = poolMean vs' i ∧ poolMax vs i = poolMax vs' i := by
  constructor
  · simp only [poolMean]
    rw [List.Perm.sum_eq (h.map (fun v => v i)), h.length_eq]
  · simp only [poolMax]
    exact listMax_perm _ _ (h.map (fun v => v i))

/-- C6 counterexample: the ensembles `cA, cB` and `cB, cA` prepare the
same initial state and agree at the first step, but the pooled mean score
of the second decoding step is 10 in one order and 5 in the other,
because the shared cache entering step two is the last member's. -/
theorem C6_counterexample :
    prepareGeneration cA [cB] "" =
      .ok { inputIds := [0], kwargs := exS0.kwargs, maxLength := 4,
            padTokenId := some 0, eosTokenId := none } ∧
    prepareGeneration cB [cA] "" =
      .ok { inputIds := [0], kwargs := exS0.kwargs, maxLength := 4,
            padTokenId := some 0, eosTokenId := none } ∧
    (stepOnce cA [cB] "mean" 4 (some 0) none exS0).map
      (fun r => poolMean (memberLogits (cA :: [cB]) r.inputIds r.kwargs) 0) =
      .ok 10 ∧
    (stepOnce cB [cA] "mean" 4 (some 0) none exS0).map
      (fun r => poolMean (memberLogits (cB :: [cA]) r.inputIds r.kwargs) 0) =
      .ok 5 ∧
    (10 : ℚ) ≠ 5 :=
  ⟨by with_unfolding_all decide, by with_unfolding_all decide,
    by with_unfolding_all decide, by with_unfolding_all decide,
    by with_unfolding_all decide⟩

/-- C6 witness: pooling invariance evaluated on a transposition of two
concrete score vectors. -/
theorem C6_witness :
    List.Perm [vEx, wEx] [wEx, vEx] ∧
    (poolMean [vEx, wEx] 0 = poolMean [wEx, vEx] 0 ∧
     poolMax [vEx, wEx] 0 = poolMax [wEx, vEx] 0) :=
  ⟨List.Perm.swap wEx vEx [], C6_theorem [vEx, wEx] [wEx, vEx] 0 (List.Perm.swap wEx vEx [])⟩

/-- C7, confirmed: if some member's tokenizer family differs from the
reference member's, the generation call fails with one of the two
compatibility `ValueError`s (the spec's `IncompatibleEnsembleError`), and
the result is unchanged when every member's forward function is replaced —
no model forward pass is executed. -/
theorem C7_theorem (m0 : Member) (rest : List Member) (srcText poolType : String)
    (f : List Nat → ModelKwargs → Outputs)
    (h : ∃ m ∈ rest, m.tokenizerFamily ≠ m0.tokenizerFamily) :
    (generate m0 rest srcText poolType = .error .incompatibleModels ∨
     generate m0 rest srcText poolType = .error .incompatibleTokenizers) ∧
    generate (withForward m0 f) (rest.map (fun m => withForward m f))
      srcText poolType = generate m0 rest srcText poolType := by
  have hcc : ∃ e, checkCompatibility m0 rest = some e ∧
      (e = .incompatibleModels ∨ e = .incompatibleTokenizers) := by
    by_cases hm : rest.all (fun m => m.modelFamily == m0.modelFamily) = true
    · refine ⟨.incompatibleTokenizers, ?_, Or.inr rfl⟩
      have ht : ¬ rest.all (fun m => m.tokenizerFamily == m0.tokenizerFamily) = true := by
        obtain ⟨m, hmem, hne⟩ := h
        simp only [List.all_eq_true, beq_iff_eq, not_forall]
        exact ⟨m, hmem, hne⟩
      simp [checkCompatibility, hm, ht]
    · exact ⟨.incompatibleModels, by simp [checkCompatibility, hm], Or.inl rfl⟩
  obtain ⟨e, he, hor⟩ := hcc
  have hsame : checkCompatibility (withForward m0 f)
      (rest.map (fun m => withForward m f)) = checkCompatibility m0 rest := by
    simp [checkCompatibility, withForward, List.all_map, Function.comp]
  constructor
  · rcases hor with rfl | rfl
    · left; simp [generate, prepareGeneration, he]
    · right; simp [generate, prepareGeneration, he]
  · simp [generate, prepareGeneration, he, hsame]

/-- C7 witness: the statement evaluated on the ensemble `cA, cG` whose
tokenizer families differ. -/
theorem C7_witness :
    (∃ m ∈ [cG], m.tokenizerFamily ≠ cA.tokenizerFamily) ∧
    ((generate cA [cG] "" "mean" = .error .incompatibleModels ∨
      generate cA [cG] "" "mean" = .error .incompatibleTokenizers) ∧
     generate (withForward cA (fun _ _ => defaultOutputs))
       ([cG].map (fun m => withForward m (fun _ _ => defaultOutputs)))
       "" "mean" = generate cA [cG] "" "mean") :=
  ⟨by decide, C7_theorem cA [cG] "" "mean" (fun _ _ => defaultOutputs) (by decide)⟩

/-- C8, corrected: a call with an unrecognized pooling mode fails with the
`ValueError` of lines 138-139 *provided* preparation succeeds and at
least one decoding iteration runs (initial length below `max_length`);
the pooling dispatch itself produces no pooled result for such a mode (it
returns the error on every input).  Without an iteration no error is
raised — see the counterexample. -/
theorem C8_theorem (m0 : Member) (rest : List Member) (srcText poolType : String)
    (p : PrepState) (vs : List (Nat → ℚ))
    (h1 : poolType ≠ "mean") (h2 : poolType ≠ "max")
    (hprep : prepareGeneration m0 rest srcText = .ok p)
    (hlen : p.inputIds.length < p.maxLength) :
    generate m0 rest srcText poolType = .error .unrecognizedPoolType ∧
    poolScores poolType vs = .error .unrecognizedPoolType := by
  constructor
  · obtain ⟨k, hk⟩ : ∃ k, p.maxLength - p.inputIds.length = k + 1 :=
      ⟨p.maxLength - p.inputIds.length - 1, by omega⟩
    have hc : (initialState p).curLen < p.maxLength := hlen
    simp only [generate, hprep, hk, decodeLoop, hc, if_true,
      stepOnce_badPool m0 rest poolType h1 h2]
  · simp [poolScores, h1, h2]

/-- C8 counterexample: with the input already at `max_length`, the loop
body never runs and a call with pool type `"bogus"` succeeds instead of
failing. -/
theorem C8_counterexample :
    generate cE [] "x" "bogus" = .ok "out" ∧
    "bogus" ≠ "mean" ∧ "bogus" ≠ "max" :=
  ⟨by with_unfolding_all decide, by decide, by decide⟩

/-- C8 witness: the amended statement evaluated on the concrete member
`cF`, whose prepared input length 1 is below `max_length` 4. -/
theorem C8_witness :
    ("bogus" ≠ "mean") ∧ ("bogus" ≠ "max") ∧
    prepareGeneration cF [] "" = .ok pF ∧
    pF.inputIds.length < pF.maxLength ∧
    (generate cF [] "" "bogus" = .error .unrecognizedPoolType ∧
     poolScores "bogus" [] = .error .unrecognizedPoolType) :=
  ⟨by decide, by decide, by with_unfolding_all decide, by decide,
    C8_theorem cF [] "" "bogus" pF [] (by decide) (by decide)
      (by with_unfolding_all decide) (by decide)⟩

/-- C9, confirmed: when the prepared initial input length already reaches
`max_length`, the loop executes zero iterations and the call returns the
detokenized initial input, for any pool-type string — in particular an
unrecognized pool type raises nothing on such inputs. -/
theorem C9_theorem (m0 : Member) (rest : List Member) (srcText poolType : String)
    (p : PrepState) (s : LoopState)
    (hprep : prepareGeneration m0 rest srcText = .ok p)
    (hlen : p.maxLength ≤ p.inputIds.length) :
    generate m0 rest srcText poolType = .ok (m0.detokenize p.inputIds) ∧
    decodeLoop m0 rest poolType p.maxLength p.padTokenId p.eosTokenId
      (p.maxLength - p.inputIds.length) s = .ok (s, 0) := by
  have h0 : p.maxLength - p.inputIds.length = 0 := Nat.sub_eq_zero_of_le hlen
  constructor
  · simp only [generate, hprep, h0, decodeLoop, initialState]
  · simp only [h0, decodeLoop]

/-- C9 witness: the statement evaluated on the member `cE`, whose
tokenized input already has length `max_length = 1`, with pool type
`"bogus"`. -/
theorem C9_witness :
    prepareGeneration cE [] "x" = .ok pE ∧
    pE.maxLength ≤ pE.inputIds.length ∧
    (generate cE [] "x" "bogus" = .ok (cE.detokenize pE.inputIds) ∧
     decodeLoop cE [] "bogus" pE.maxLength pE.padTokenId pE.eosTokenId
       (pE.maxLength - pE.inputIds.length) (initialState pE) =
       .ok (initialState pE, 0)) :=
  ⟨by with_unfolding_all decide, by decide,
    C9_theorem cE [] "x" "bogus" pE (initialState pE)
      (by with_unfolding_all decide) (by decide)⟩

/-- C10, confirmed: after preparation, a configured end token implies a
configured pad token (the substitution of lines 62-64 runs before the
loop), so the in-loop assertion of line 145 can never fail: the loop body
never returns the pad-assertion error under the prepared parameters. -/
theorem C10_theorem (m0 : Member) (rest : List Member) (srcText poolType : String)
    (maxLength : Nat) (p : PrepState) (s : LoopState)
    (hprep : prepareGeneration m0 rest srcText = .ok p)
    (heos : p.eosTokenId.isSome = true) :
    p.padTokenId.isSome = true ∧
    stepOnce m0 rest poolType maxLength p.padTokenId p.eosTokenId s ≠
      .error .padAssertionFailed := by
  obtain ⟨hml, hpad, heq⟩ := prepareGeneration_fields m0 rest srcText p hprep
  have hps : p.padTokenId.isSome = true := by
    rw [hpad]
    exact resolvePadTokenId_isSome _ _ (by rw [← heq]; exact heos)
  refine ⟨hps, ?_⟩
  intro hcon
  obtain ⟨q, hq⟩ := Option.isSome_iff_exists.mp hps
  simp only [stepOnce, hq] at hcon
  split at hcon
  · rename_i e hpool
    have he := poolScores_error _ _ _ hpool
    subst he
    simp at hcon
  · split at hcon
    · simp at hcon
    · simp at hcon

/-- C10 witness: the statement evaluated on the concrete member `cF`,
whose configuration has both tokens present. -/
theorem C10_witness :
    prepareGeneration cF [] "" = .ok pF ∧
    pF.eosTokenId.isSome = true ∧
    (pF.padTokenId.isSome = true ∧
     stepOnce cF [] "mean" 4 pF.padTokenId pF.eosTokenId (initialState pF) ≠
       .error .padAssertionFailed) :=
  ⟨by with_unfolding_all decide, by decide,
    C10_theorem cF [] "" "mean" 4 pF (initialState pF)
      (by with_unfolding_all decide) (by decide)⟩

end Intunlu
